import Mathlib

/-!
Verification of the job scheduling and adaptive-throttling core of the
AI Image Generator Manager backend (src/backend/advanced_features.py and
src/backend/server.py), as a shallow embedding in Lean 4.

Time is modelled as rational seconds (Python time.time()); machine floats
are modelled as exact rationals, which is faithful for the bounded
comparisons and the arithmetic the claims are about.
-/

namespace EXTEM

/-! ## Rate Governor: AdvancedRateLimiter (advanced_features.py, lines 127-221)

The request history of a provider is a deque of tuples
(timestamp, success, response_time, error_type); the adaptive limits map
holds requests_per_minute (default 10); the cooldown map holds the
cooldown end time of the provider. -/

/-- Entry of the per-provider request history deque, as appended by
record_request: (now, success, response_time, error_type). -/
structure Sample where
  timestamp : ℚ
  success : Bool
  responseTime : ℚ
  errorType : Option String
deriving Repr, DecidableEq

/-- Per-provider state of AdvancedRateLimiter: history deque (oldest
first), adaptive requests_per_minute limit (defaultdict value 10), and
the cooldown end time from cooldown_periods (none if the provider was
never put into cooldown). -/
structure RateState where
  history : List Sample
  limit : ℕ
  cooldownEnd : Option ℚ
deriving Repr, DecidableEq

/-- Default per-provider rate state: empty history, adaptive limit 10
(the defaultdict default requests_per_minute), no cooldown entry. -/
def initialRateState : RateState := { history := [], limit := 10, cooldownEnd := none }

/-- Window part of can_make_request (after the cooldown check): evict
entries older than 60 s from the front of the deque, admit with (true, 0)
if occupancy is below the adaptive limit, else deny with
wait = max 0 (60 - (now - oldest)); the trailing `return True, 0` of the
source is the empty-history fallback. -/
def windowAdmit (st : RateState) (now : ℚ) : (Bool × ℚ) × RateState :=
  let hist := st.history.dropWhile (fun s => s.timestamp < now - 60)
  let st1 : RateState := { st with history := hist }
  if hist.length < st1.limit then
    ((true, 0), st1)
  else
    match hist with
    | first :: _ => ((false, max 0 (60 - (now - first.timestamp))), st1)
    | [] => ((true, 0), st1)

/-- can_make_request (advanced_features.py lines 137-167): if the provider
is in cooldown and now is before its end, deny with
wait = cooldown_end - now and touch nothing; otherwise run the sliding
window check. -/
def canMakeRequest (st : RateState) (now : ℚ) : (Bool × ℚ) × RateState :=
  match st.cooldownEnd with
  | some ce => if now < ce then ((false, ce - now), st) else windowAdmit st now
  | none => windowAdmit st now

/-- Success rate that _adapt_limits computes over the last-10 window. -/
def successRate (recent : List Sample) : ℚ :=
  ((recent.filter (fun s => s.success)).length : ℚ) / (recent.length : ℚ)

/-- Mean response time that _adapt_limits computes: mean of the positive
response times of the window, 0 when no nonzero response time exists. -/
def avgResponseTime (recent : List Sample) : ℚ :=
  let pos := (recent.map (fun s => s.responseTime)).filter (fun rt => 0 < rt)
  if recent.any (fun s => s.responseTime ≠ 0) then pos.sum / (pos.length : ℚ) else 0

/-- Branch structure of _adapt_limits on the last-10 window: raise the
limit by 2 capped at 60 when success_rate > 0.95 and mean response time
< 2.0 and limit < 60, else (elif) lower it by 2 floored at 3 when
success_rate < 0.8 or mean response time > 10.0, else keep it. -/
def adaptStep (recent : List Sample) (l : ℕ) : ℕ :=
  if successRate recent > 95/100 ∧ avgResponseTime recent < 2 ∧ l < 60 then
    min (l + 2) 60
  else if successRate recent < 8/10 ∨ avgResponseTime recent > 10 then
    max (l - 2) 3
  else l

/-- _adapt_limits (advanced_features.py lines 182-204): no change below 5
samples; otherwise the limit is rewritten by adaptStep evaluated over the
last 10 samples of the history. -/
def adaptLimits (st : RateState) : RateState :=
  if st.history.length < 5 then st
  else { st with limit := adaptStep (st.history.drop (st.history.length - 10)) st.limit }

/-- Cooldown durations of _handle_error (advanced_features.py lines
206-221): the error_responses table with .get default 60 for any unknown
error type. -/
def errorCooldown (e : String) : ℚ :=
  if e = "rate_limit" then 300
  else if e = "server_error" then 60
  else if e = "timeout" then 30
  else if e = "maintenance" then 900
  else if e = "quota_exceeded" then 3600
  else 60

/-- _handle_error: overwrite the cooldown end of the provider with
now + cooldown_seconds (plain dict assignment, last write wins). -/
def handleError (st : RateState) (now : ℚ) (e : String) : RateState :=
  { st with cooldownEnd := some (now + errorCooldown e) }

/-- Truthiness of the error_type argument in `if not success and
error_type:` — None and the empty string are falsy. -/
def errTruthy : Option String → Bool
  | none => false
  | some e => e ≠ ""

/-- record_request (advanced_features.py lines 169-180): append the
sample, adapt the limits, then on a failed record with a truthy
error_type apply the error cooldown. -/
def recordRequest (st : RateState) (now : ℚ) (success : Bool)
    (rt : ℚ) (errType : Option String) : RateState :=
  let st1 : RateState := { st with history := st.history ++ [⟨now, success, rt, errType⟩] }
  let st2 := adaptLimits st1
  if !success && errTruthy errType then handleError st2 now (errType.getD "") else st2

/-- Recorded event: arguments of one record_request call. -/
structure RecordEvent where
  now : ℚ
  success : Bool
  responseTime : ℚ
  errorType : Option String
deriving Repr, DecidableEq

/-- Fold a sequence of record_request calls over a rate state. -/
def runRecords (st : RateState) : List RecordEvent → RateState
  | [] => st
  | ev :: evs => runRecords (recordRequest st ev.now ev.success ev.responseTime ev.errorType) evs

/-- check_rate_limit (server.py lines 115-127): the simple gate of the
worker path; evicts timestamps older than 60 s, and on admission appends
the current timestamp. -/
def checkRateLimit (times : List ℚ) (now : ℚ) (limitPerMinute : ℕ) : Bool × List ℚ :=
  let t := times.dropWhile (fun x => x < now - 60)
  if t.length < limitPerMinute then (true, t ++ [now]) else (false, t)

/-! ## Recovery Chain: EnhancedErrorRecovery (advanced_features.py, lines 223-355) -/

/-- Structured error details passed to handle_automation_failure; the
fields the strategies read are missing_element and page_source. -/
structure ErrorDetails where
  missingElement : Option String
  pageSource : String
deriving Repr, DecidableEq

/-- Entry inserted into db.manual_queue by _try_manual_fallback. -/
structure ManualEntry where
  jobId : String
  provider : String
  errorType : String
  details : ErrorDetails
  status : String
deriving Repr, DecidableEq

/-- Failure pattern record appended by handle_automation_failure
(provider, job id, error type). -/
structure FailureInfo where
  provider : String
  jobId : String
  errorType : String
deriving Repr, DecidableEq

/-- Mutable state touched by the recovery chain: the durable manual-review
queue collection and the in-memory failure pattern list. -/
structure RecoveryState where
  manualQueue : List ManualEntry
  failurePatterns : List FailureInfo
deriving Repr, DecidableEq

/-- Outcome of the external selector write in _try_selector_update:
update_selectors returns whether the Mongo update modified a document
(and returns false on an internal exception); the bit is an input of the
model because it is decided by the external document store. -/
structure RecoveryEnv where
  updateOk : Bool
deriving Repr, DecidableEq

/-- _find_alternative_selectors (advanced_features.py lines 329-355):
the static alternatives table has candidate lists only for prompt_input
and generate_button; for those the first candidate is returned, for any
other element the empty map. -/
def alternativeSelectorFor (m : String) : Option String :=
  if m = "prompt_input" then some "textarea[name*=\x27prompt\x27]"
  else if m = "generate_button" then some "button[data-testid*=\x27generate\x27]"
  else none

/-- _try_selector_update (advanced_features.py lines 270-294): declines
unless error_type is element_not_found and details carry a truthy
missing_element with an entry in the alternatives table; then it succeeds
iff the selector write through update_selectors succeeds. -/
def trySelectorUpdate (env : RecoveryEnv) (errorType : String) (details : ErrorDetails) : Bool :=
  if errorType ≠ "element_not_found" then false
  else
    match details.missingElement with
    | none => false
    | some m =>
      if m = "" then false
      else
        match alternativeSelectorFor m with
        | some _ => env.updateOk
        | none => false

/-- _try_alternative_selectors (advanced_features.py lines 296-304):
declines for every input (returns False after its error_type guard). -/
def tryAlternativeSelectors (errorType : String) (details : ErrorDetails) : Bool :=
  if errorType ≠ "element_not_found" then false else false

/-- _try_different_approach (advanced_features.py lines 306-311):
declines for every input. -/
def tryDifferentApproach (errorType : String) (details : ErrorDetails) : Bool :=
  false

/-- _try_manual_fallback (advanced_features.py lines 313-327): insert one
pending_manual entry for the job into db.manual_queue and succeed. -/
def tryManualFallback (st : RecoveryState) (provider jobId errorType : String)
    (details : ErrorDetails) : Bool × RecoveryState :=
  (true, { st with
    manualQueue := st.manualQueue ++ [⟨jobId, provider, errorType, details, "pending_manual"⟩] })

/-- handle_automation_failure (advanced_features.py lines 233-268):
record the failure pattern, then run the four strategies in order,
returning on the first success. -/
def handleAutomationFailure (env : RecoveryEnv) (st : RecoveryState)
    (provider jobId errorType : String) (details : ErrorDetails) : Bool × RecoveryState :=
  let st1 : RecoveryState :=
    { st with failurePatterns := st.failurePatterns ++ [⟨provider, jobId, errorType⟩] }
  if trySelectorUpdate env errorType details then (true, st1)
  else if tryAlternativeSelectors errorType details then (true, st1)
  else if tryDifferentApproach errorType details then (true, st1)
  else tryManualFallback st1 provider jobId errorType details

/-! ## Job Queue and Worker Loop (server.py, lines 34-38, 114-127, 226-346,
673-697, 718-732)

The job documents live in db.jobs; the in-memory asyncio.Queue holds the
ImageGenerationJob objects put at creation time. All db writes of the
worker loop are update_one calls filtered by the job id only. -/

/-- Job status strings of the ImageGenerationJob model. -/
inductive JStatus
  | queued
  | processing
  | completed
  | failed
  | cancelled
deriving Repr, DecidableEq

/-- Projection of a db.jobs document to the fields the worker loop and the
cancel endpoint read and write. -/
structure JobDoc where
  id : String
  status : JStatus
  retryCount : ℕ
deriving Repr, DecidableEq

/-- In-memory ImageGenerationJob object travelling through the
asyncio.Queue; the worker reads its id and retry_count (and the stored
priority is never consulted by the queue). -/
structure JobObj where
  id : String
  retryCount : ℕ
  priority : ℤ
deriving Repr, DecidableEq

/-- update_one on db.jobs filtered by id only: rewrite the first document
with the given id (ids are unique in practice). -/
def setFields (db : List JobDoc) (jid : String) (f : JobDoc → JobDoc) : List JobDoc :=
  match db with
  | [] => []
  | d :: ds => if d.id = jid then f d :: ds else d :: setFields ds jid f

/-- Status of the first document with the given id. -/
def statusOf (db : List JobDoc) (jid : String) : Option JStatus :=
  match db with
  | [] => none
  | d :: ds => if d.id = jid then some d.status else statusOf ds jid

/-- External facts deciding one processing attempt: whether the provider
document exists and whether check_rate_limit admits the request. The
automation body itself is the simulated sleep of the source and always
produces a result. -/
structure ProcEnv where
  providerExists : Bool
  rateAllowed : Bool
deriving Repr, DecidableEq

/-- process_single_job (server.py lines 304-346): returns False when the
provider is unknown; on a rate-limit denial sleeps 60 s inline inside the
(single) worker loop and returns False; otherwise the simulated
automation succeeds. Result is (success, seconds the worker loop is
blocked by the rate-denial sleep). -/
def processSingleJob (env : ProcEnv) : Bool × ℕ :=
  if !env.providerExists then (false, 0)
  else if !env.rateAllowed then (false, 60)
  else (true, 0)

/-- Observable outcome of one iteration of process_job_queue on a popped
job: the rewritten db.jobs collection, the object put back on the queue
for retry (if any), the seconds the loop was blocked sleeping, and the
broadcast (job_id, status) events in order. -/
structure WorkerResult where
  db : List JobDoc
  requeued : Option JobObj
  blockedSeconds : ℕ
  broadcasts : List (String × String)
deriving Repr, DecidableEq

/-- process_job_queue body (server.py lines 238-298) for one popped job
object: write status processing (filter by id only) and broadcast it, run
process_single_job, then on success write completed, on failure with
retry_count < 3 write queued with retry_count + 1 and put the object back
on the queue, else write failed; finally broadcast the resulting status
string. No write re-checks the current status of the document. -/
def workerStep (env : ProcEnv) (db : List JobDoc) (j : JobObj) : WorkerResult :=
  let db1 := setFields db j.id (fun d => { d with status := .processing })
  let b1 : List (String × String) := [(j.id, "processing")]
  let r := processSingleJob env
  if r.1 then
    { db := setFields db1 j.id (fun d => { d with status := .completed })
      requeued := none
      blockedSeconds := r.2
      broadcasts := b1 ++ [(j.id, "completed")] }
  else if j.retryCount < 3 then
    { db := setFields db1 j.id
        (fun d => { d with status := .queued, retryCount := j.retryCount + 1 })
      requeued := some { j with retryCount := j.retryCount + 1 }
      blockedSeconds := r.2
      broadcasts := b1 ++ [(j.id, "queued_retry")] }
  else
    { db := setFields db1 j.id (fun d => { d with status := .failed })
      requeued := none
      blockedSeconds := r.2
      broadcasts := b1 ++ [(j.id, "failed")] }

/-- Repeated processing attempts of one job: each attempt runs workerStep
and continues with the re-queued object while one exists. Returns the
final db and the still-live job object (none once the job left the
retry path). -/
def runJob (db : List JobDoc) (j : JobObj) : List ProcEnv → List JobDoc × Option JobObj
  | [] => (db, some j)
  | e :: es =>
    let r := workerStep e db j
    match r.requeued with
    | some j2 => runJob r.db j2 es
    | none => (r.db, none)

/-- cancel_job (server.py lines 718-732): update_one with filter
{id, status in [queued, processing]} — rewrite the first matching
document to cancelled; the returned flag is modified_count > 0 (false
means the endpoint answers 404 and nothing changed). -/
def cancelJob (db : List JobDoc) (jid : String) : List JobDoc × Bool :=
  match db with
  | [] => ([], false)
  | d :: ds =>
    if d.id = jid ∧ (d.status = .queued ∨ d.status = .processing) then
      ({ d with status := .cancelled } :: ds, true)
    else
      let r := cancelJob ds jid
      (d :: r.1, r.2)

/-- asyncio.Queue put: append at the tail (server.py line 36; the queue is
a plain FIFO queue). -/
def queuePut (q : List JobObj) (j : JobObj) : List JobObj := q ++ [j]

/-- asyncio.Queue get: take the head, irrespective of any field of the
stored objects. -/
def queueGet (q : List JobObj) : Option (JobObj × List JobObj) :=
  match q with
  | [] => none
  | j :: rest => some (j, rest)

/-! ## Batch creation: create_batch_job (server.py, lines 734-773) -/

/-- Request body of the batch endpoint (the fields the handler reads). -/
structure BatchInput where
  id : String
  name : String
  prompts : List String
  providers : List String
deriving Repr, DecidableEq

/-- Job record inserted for one (prompt, provider) pair of a batch:
priority 2 and metadata {batch_id, source: batch}. -/
structure BatchJobRec where
  prompt : String
  provider : String
  priority : ℤ
  batchId : String
  source : String
deriving Repr, DecidableEq

/-- Inner/outer loop of create_batch_job: for each prompt in order, one
job record per provider in order. -/
def batchJobsAux (batchId : String) (providers : List String) : List String → List BatchJobRec
  | [] => []
  | pr :: prs =>
    providers.map (fun pv => ⟨pr, pv, 2, batchId, "batch"⟩) ++ batchJobsAux batchId providers prs

/-- Nested loop of create_batch_job: for each prompt, for each provider,
one job record referencing the batch id. -/
def batchJobs (b : BatchInput) : List BatchJobRec :=
  batchJobsAux b.id b.providers b.prompts

/-- create_batch_job: progress.total is set to
len(prompts) * len(providers) on the inserted batch document before any
job is created, and the nested loop inserts the job records. Result is
(progress.total, inserted job records). -/
def createBatchJob (b : BatchInput) : ℕ × List BatchJobRec :=
  (b.prompts.length * b.providers.length, batchJobs b)

/-! ## Scheduler: SmartJobScheduler (advanced_features.py, lines 357-439) -/

/-- Projection of a db.jobs document to the fields the scheduler queries
read: provider, status string, created_at, optional completed_at. -/
structure DbJob where
  provider : String
  status : String
  createdAt : ℚ
  completedAt : Option ℚ
deriving Repr, DecidableEq

/-- Mongo query of _calculate_optimal_delay: completed jobs of the
provider with completed_at within the trailing 24 h (a document without
completed_at never satisfies the $gte bound). -/
def completedInWindow (jobs : List DbJob) (p : String) (now : ℚ) : List DbJob :=
  jobs.filter (fun j => j.provider == p && j.status == "completed" &&
    (match j.completedAt with
     | some c => decide (now - 24 * 3600 ≤ c)
     | none => false))

/-- Insertion step of the sort on completed_at descending. -/
def insertByCompletedDesc (j : DbJob) : List DbJob → List DbJob
  | [] => [j]
  | k :: ks =>
    if k.completedAt.getD 0 ≤ j.completedAt.getD 0 then j :: k :: ks
    else k :: insertByCompletedDesc j ks

/-- Sort on completed_at descending (the .sort("completed_at", -1) of the
query). -/
def sortByCompletedDesc : List DbJob → List DbJob
  | [] => []
  | j :: js => insertByCompletedDesc j (sortByCompletedDesc js)

/-- Processing times of the jobs that carry both timestamps
(completed_at - created_at per job). -/
def processingTimes (js : List DbJob) : List ℚ :=
  js.filterMap (fun j => j.completedAt.map (fun c => c - j.createdAt))

/-- _calculate_optimal_delay (advanced_features.py lines 390-414): take
the 50 most recent completed jobs of the provider within 24 h; with no
such job the delay is 0, else it is
min(mean(processing_time) * 0.1, 30). -/
def calculateOptimalDelay (jobs : List DbJob) (p : String) (now : ℚ) : ℚ :=
  let recent := (sortByCompletedDesc (completedInWindow jobs p now)).take 50
  if recent.isEmpty then 0
  else
    let pts := processingTimes recent
    if 0 < pts.length then min ((pts.sum / (pts.length : ℚ)) * (1/10)) 30 else 0

/-- Mongo count of _adjust_priority: jobs of the provider created within
the trailing 6 h. -/
def jobsInWindow6h (jobs : List DbJob) (p : String) (now : ℚ) : List DbJob :=
  jobs.filter (fun j => j.provider == p && decide (now - 6 * 3600 ≤ j.createdAt))

/-- _adjust_priority (advanced_features.py lines 416-439): with no job of
the provider created in the trailing 6 h the base priority is kept; else
success_rate = completed / total boosts the priority by 1 capped at 5
above 0.9 and lowers it by 1 floored at 1 below 0.5. -/
def adjustPriority (jobs : List DbJob) (p : String) (now : ℚ) (base : ℤ) : ℤ :=
  let window := jobsInWindow6h jobs p now
  let total := window.length
  let succ := (window.filter (fun j => j.status == "completed")).length
  if 0 < total then
    let sr : ℚ := (succ : ℚ) / (total : ℚ)
    if sr > 9/10 then min (base + 1) 5
    else if sr < 1/2 then max (base - 1) 1
    else base
  else base

/-- schedule_job (advanced_features.py lines 368-388): the pair the
scheduler attaches to the job draft — the optimal delay (scheduled_time
is now + delay) and the adjusted priority. -/
def scheduleJob (jobs : List DbJob) (p : String) (now : ℚ) (base : ℤ) : ℚ × ℤ :=
  (calculateOptimalDelay jobs p now, adjustPriority jobs p now base)

/-! ## Helper lemmas on the Rate Governor -/

/-- adaptStep keeps the limit inside [3, 60]. -/
theorem adaptStep_bounds (recent : List Sample) (l : ℕ) (h3 : 3 ≤ l) (h60 : l ≤ 60) :
    3 ≤ adaptStep recent l ∧ adaptStep recent l ≤ 60 := by
  unfold adaptStep
  split
  · omega
  · split
    · omega
    · exact ⟨h3, h60⟩

/-- adaptStep moves a limit that is at least 3 (as every reachable limit
is) by at most 2 in either direction. -/
theorem adaptStep_change (recent : List Sample) (l : ℕ) (h3 : 3 ≤ l) :
    adaptStep recent l ≤ l + 2 ∧ l ≤ adaptStep recent l + 2 := by
  unfold adaptStep
  split
  · next h => have hl : l < 60 := h.2.2; omega
  · split
    · omega
    · omega

/-- adaptLimits never touches the history. -/
theorem adaptLimits_history (st : RateState) : (adaptLimits st).history = st.history := by
  unfold adaptLimits; split <;> rfl

/-- adaptLimits never touches the cooldown. -/
theorem adaptLimits_cooldown (st : RateState) :
    (adaptLimits st).cooldownEnd = st.cooldownEnd := by
  unfold adaptLimits; split <;> rfl

/-- Limit after record_request is the adaptLimits result on the appended
history (the subsequent error handling changes only the cooldown). -/
theorem recordRequest_limit (st : RateState) (now : ℚ) (success : Bool) (rt : ℚ)
    (e : Option String) :
    (recordRequest st now success rt e).limit
      = (adaptLimits { st with history := st.history ++ [⟨now, success, rt, e⟩] }).limit := by
  simp only [recordRequest]
  split <;> rfl

/-- record_request preserves the [3, 60] limit invariant. -/
theorem recordRequest_bounds (st : RateState) (now : ℚ) (success : Bool) (rt : ℚ)
    (e : Option String) (h3 : 3 ≤ st.limit) (h60 : st.limit ≤ 60) :
    3 ≤ (recordRequest st now success rt e).limit ∧
      (recordRequest st now success rt e).limit ≤ 60 := by
  rw [recordRequest_limit]
  unfold adaptLimits
  split
  · exact ⟨h3, h60⟩
  · exact adaptStep_bounds _ _ h3 h60

/-- record_request moves a limit that is at least 3 by at most 2. -/
theorem recordRequest_change (st : RateState) (now : ℚ) (success : Bool) (rt : ℚ)
    (e : Option String) (h3 : 3 ≤ st.limit) :
    (recordRequest st now success rt e).limit ≤ st.limit + 2 ∧
      st.limit ≤ (recordRequest st now success rt e).limit + 2 := by
  rw [recordRequest_limit]
  unfold adaptLimits
  split
  · exact ⟨Nat.le_add_right _ 2, Nat.le_add_right _ 2⟩
  · exact adaptStep_change _ st.limit h3

/-- record_request leaves the limit alone while fewer than 5 samples
exist after the append. -/
theorem recordRequest_small_history (st : RateState) (now : ℚ) (success : Bool) (rt : ℚ)
    (e : Option String) (h : st.history.length + 1 < 5) :
    (recordRequest st now success rt e).limit = st.limit := by
  rw [recordRequest_limit]
  unfold adaptLimits
  rw [if_pos (by simpa using h)]

/-- The whole run of record_request calls keeps the limit in [3, 60]. -/
theorem runRecords_bounds (evs : List RecordEvent) (st : RateState)
    (h3 : 3 ≤ st.limit) (h60 : st.limit ≤ 60) :
    3 ≤ (runRecords st evs).limit ∧ (runRecords st evs).limit ≤ 60 := by
  induction evs generalizing st with
  | nil => exact ⟨h3, h60⟩
  | cons ev evs ih =>
    have h := recordRequest_bounds st ev.now ev.success ev.responseTime ev.errorType h3 h60
    exact ih _ h.1 h.2

/-- The limit adaptation depends only on the last 10 samples (given at
least 5 exist). -/
theorem adaptLimits_last10 (h1 h2 : List Sample) (l : ℕ) (c1 c2 : Option ℚ)
    (n1 : 5 ≤ h1.length) (n2 : 5 ≤ h2.length)
    (hrec : h1.drop (h1.length - 10) = h2.drop (h2.length - 10)) :
    (adaptLimits ⟨h1, l, c1⟩).limit = (adaptLimits ⟨h2, l, c2⟩).limit := by
  unfold adaptLimits
  rw [if_neg (by show ¬(h1.length < 5); omega), if_neg (by show ¬(h2.length < 5); omega)]
  show adaptStep (h1.drop (h1.length - 10)) l = adaptStep (h2.drop (h2.length - 10)) l
  rw [hrec]

/-- The increase guard of adaptStep excludes the decrease guard. -/
theorem adaptStep_guards_exclusive (recent : List Sample) (l : ℕ)
    (h : successRate recent > 95/100 ∧ avgResponseTime recent < 2 ∧ l < 60) :
    ¬(successRate recent < 8/10 ∨ avgResponseTime recent > 10) := by
  rintro (hs | ha)
  · linarith [h.1]
  · linarith [h.2.1]

/-! ## Claim C1 -/

/-- C1: every invocation of handle_automation_failure returns true, and
whenever strategy 1 (the only one that can succeed besides the fallback)
declines, the manual-fallback strategy runs and appends exactly one
pending_manual entry for the job id to the manual queue; the chain never
reports total failure to its caller. -/
theorem C1_recovery_always_succeeds (env : RecoveryEnv) (st : RecoveryState)
    (provider jobId errorType : String) (details : ErrorDetails) :
    (handleAutomationFailure env st provider jobId errorType details).1 = true ∧
    (trySelectorUpdate env errorType details = false →
      (handleAutomationFailure env st provider jobId errorType details).2.manualQueue
        = st.manualQueue ++ [⟨jobId, provider, errorType, details, "pending_manual"⟩]) := by
  unfold handleAutomationFailure tryManualFallback tryAlternativeSelectors tryDifferentApproach
  cases h : trySelectorUpdate env errorType details <;> simp [h]

/-- Witness for C1 at a concrete failing job. -/
theorem C1_recovery_always_succeeds_witness :
    (handleAutomationFailure ⟨false⟩ ⟨[], []⟩ "ImageFX" "job-1" "timeout" ⟨none, ""⟩).1 = true ∧
    (handleAutomationFailure ⟨false⟩ ⟨[], []⟩ "ImageFX" "job-1" "timeout" ⟨none, ""⟩).2.manualQueue
      = [⟨"job-1", "ImageFX", "timeout", ⟨none, ""⟩, "pending_manual"⟩] := by
  have h := C1_recovery_always_succeeds ⟨false⟩ ⟨[], []⟩ "ImageFX" "job-1" "timeout" ⟨none, ""⟩
  exact ⟨h.1, by rw [h.2 (by decide)]; rfl⟩

/-! ## Claim C2 -/

/-- C2 (amended): from the initial per-provider state the adaptive limit
stays within [3, 60] for every sequence of record calls, and each record
call changes it by at most 2 (the claimed exact step of 2 fails where the
floor 3 or the cap 60 truncates the step); adaptation happens only when
at least 5 samples exist, is evaluated over the last 10 samples, and the
increase and decrease guards are mutually exclusive (increase evaluated
first). -/
theorem C2_adaptive_limit_invariant :
    (∀ evs : List RecordEvent,
      3 ≤ (runRecords initialRateState evs).limit ∧
        (runRecords initialRateState evs).limit ≤ 60) ∧
    (∀ (st : RateState) (now : ℚ) (success : Bool) (rt : ℚ) (e : Option String),
      3 ≤ st.limit →
      (recordRequest st now success rt e).limit ≤ st.limit + 2 ∧
        st.limit ≤ (recordRequest st now success rt e).limit + 2) ∧
    (∀ (st : RateState) (now : ℚ) (success : Bool) (rt : ℚ) (e : Option String),
      st.history.length + 1 < 5 → (recordRequest st now success rt e).limit = st.limit) ∧
    (∀ (h1 h2 : List Sample) (l : ℕ) (c1 c2 : Option ℚ), 5 ≤ h1.length → 5 ≤ h2.length →
      h1.drop (h1.length - 10) = h2.drop (h2.length - 10) →
      (adaptLimits ⟨h1, l, c1⟩).limit = (adaptLimits ⟨h2, l, c2⟩).limit) ∧
    (∀ (recent : List Sample) (l : ℕ),
      successRate recent > 95/100 ∧ avgResponseTime recent < 2 ∧ l < 60 →
      ¬(successRate recent < 8/10 ∨ avgResponseTime recent > 10)) :=
  ⟨fun evs => runRecords_bounds evs initialRateState (by decide) (by decide),
   recordRequest_change, recordRequest_small_history, adaptLimits_last10,
   adaptStep_guards_exclusive⟩

/-- Witness for C2 at a concrete record sequence. -/
theorem C2_adaptive_limit_invariant_witness :
    3 ≤ (runRecords initialRateState [⟨0, false, 0, none⟩]).limit ∧
    (recordRequest initialRateState 0 true 0 none).limit = initialRateState.limit := by
  refine ⟨(C2_adaptive_limit_invariant.1 [⟨0, false, 0, none⟩]).1, ?_⟩
  exact C2_adaptive_limit_invariant.2.2.1 initialRateState 0 true 0 none (by decide)

/-- Counterexample for C2 as stated: eight consecutive failing records
drive the limit 10 → 8 → 6 → 4 → 3; the last adaptation step (the eighth
record) moves the limit from 4 to 3, a change of 1, not of exactly 2. -/
theorem C2_counterexample :
    (runRecords initialRateState (List.replicate 7 ⟨0, false, 0, none⟩)).limit = 4 ∧
    (runRecords initialRateState (List.replicate 8 ⟨0, false, 0, none⟩)).limit = 3 ∧
    runRecords initialRateState (List.replicate 8 ⟨0, false, 0, none⟩)
      = recordRequest (runRecords initialRateState (List.replicate 7 ⟨0, false, 0, none⟩))
          0 false 0 none ∧
    ¬((4 : ℕ) = 3 + 2 ∨ (3 : ℕ) + 2 = 4) := by
  refine ⟨?_, ?_, ?_, by omega⟩ <;>
    norm_num [runRecords, recordRequest, adaptLimits, adaptStep, successRate, avgResponseTime,
      errTruthy, initialRateState, List.replicate]

/-! ## Claim C3 -/

/-- C3: while now is before a set cooldown end, admission is denied with
wait = cooldown_end - now and the state untouched; at or after the end
the window check decides; the error table maps rate_limit to 300 s,
server_error 60 s, timeout 30 s, maintenance 900 s, quota_exceeded
3600 s and any unknown kind 60 s; a cooldown write overwrites any prior
cooldown end (last write wins), and a failed record with a nonempty error
kind installs now + duration as the cooldown end. -/
theorem C3_cooldown_semantics :
    (∀ (st : RateState) (now ce : ℚ), st.cooldownEnd = some ce → now < ce →
      canMakeRequest st now = ((false, ce - now), st)) ∧
    (∀ (st : RateState) (now ce : ℚ), st.cooldownEnd = some ce → ce ≤ now →
      canMakeRequest st now = windowAdmit st now) ∧
    (errorCooldown "rate_limit" = 300 ∧ errorCooldown "server_error" = 60 ∧
      errorCooldown "timeout" = 30 ∧ errorCooldown "maintenance" = 900 ∧
      errorCooldown "quota_exceeded" = 3600) ∧
    (∀ e : String, e ≠ "rate_limit" → e ≠ "server_error" → e ≠ "timeout" →
      e ≠ "maintenance" → e ≠ "quota_exceeded" → errorCooldown e = 60) ∧
    (∀ (st : RateState) (now : ℚ) (e : String),
      (handleError st now e).cooldownEnd = some (now + errorCooldown e)) ∧
    (∀ (st : RateState) (now rt : ℚ) (e : String), e ≠ "" →
      (recordRequest st now false rt (some e)).cooldownEnd = some (now + errorCooldown e)) := by
  refine ⟨?_, ?_, by decide, ?_, fun st now e => rfl, ?_⟩
  · intro st now ce hce hlt
    unfold canMakeRequest
    rw [hce]
    simp [hlt]
  · intro st now ce hce hge
    unfold canMakeRequest
    rw [hce]
    simp [not_lt.mpr hge]
  · intro e h1 h2 h3 h4 h5
    unfold errorCooldown
    rw [if_neg h1, if_neg h2, if_neg h3, if_neg h4, if_neg h5]
  · intro st now rt e he
    have ht : errTruthy (some e) = true := by simp [errTruthy, he]
    simp only [recordRequest, Bool.not_false, Bool.true_and, ht, if_pos]
    rfl

/-- Witness for C3 at a concrete cooldown. -/
theorem C3_cooldown_semantics_witness :
    canMakeRequest ⟨[], 10, some 100⟩ 40 = ((false, 60), ⟨[], 10, some 100⟩) ∧
    errorCooldown "weird_error" = 60 ∧
    (recordRequest initialRateState 0 false 0 (some "rate_limit")).cooldownEnd = some 300 := by
  refine ⟨?_, ?_, ?_⟩
  · have h := C3_cooldown_semantics.1 ⟨[], 10, some 100⟩ 40 100 rfl (by norm_num)
    rw [h]; norm_num
  · exact C3_cooldown_semantics.2.2.2.1 "weird_error"
      (by decide) (by decide) (by decide) (by decide) (by decide)
  · have h := C3_cooldown_semantics.2.2.2.2.2 initialRateState 0 0 "rate_limit" (by decide)
    rw [h]; norm_num [errorCooldown]

/-! ## Claim C4 -/

/-- C4 (code bug): when check_rate_limit denies a job of an existing
provider, process_single_job sleeps 60 s inline inside the single shared
worker loop and returns False, so the denial is treated as an attempt
failure; for a job whose retry_count has reached 3 the worker then marks
it failed instead of deferring it — the source stalls the whole queue and
can fail a job for a provider-side rate limit, contrary to the claim. -/
theorem C4_rate_denied_blocks_and_fails :
    processSingleJob ⟨true, false⟩ = (false, 60) ∧
    (workerStep ⟨true, false⟩ [⟨"job-1", .queued, 3⟩] ⟨"job-1", 3, 1⟩).blockedSeconds = 60 ∧
    (workerStep ⟨true, false⟩ [⟨"job-1", .queued, 3⟩] ⟨"job-1", 3, 1⟩).requeued = none ∧
    statusOf (workerStep ⟨true, false⟩ [⟨"job-1", .queued, 3⟩] ⟨"job-1", 3, 1⟩).db "job-1"
      = some .failed ∧
    ("job-1", "failed") ∈ (workerStep ⟨true, false⟩ [⟨"job-1", .queued, 3⟩] ⟨"job-1", 3, 1⟩).broadcasts := by
  decide

/-! ## Claim C5 -/

/-- cancel_job is a no-op answering 404 when no document with the id is
in a cancellable state. -/
theorem cancelJob_no_match (db : List JobDoc) (jid : String)
    (h : ∀ d ∈ db, d.id = jid → d.status ≠ .queued ∧ d.status ≠ .processing) :
    cancelJob db jid = (db, false) := by
  induction db with
  | nil => rfl
  | cons d ds ih =>
    have hd := h d (List.mem_cons_self d ds)
    have hc : ¬(d.id = jid ∧ (d.status = .queued ∨ d.status = .processing)) := by
      rintro ⟨hid, hst | hst⟩
      · exact (hd hid).1 hst
      · exact (hd hid).2 hst
    have ihs := ih (fun e he hid => h e (List.mem_cons_of_mem d he) hid)
    simp only [cancelJob, if_neg hc, ihs]

/-- cancel_job rewrites the first cancellable document with the id to
cancelled and reports success. -/
theorem cancelJob_match (pre post : List JobDoc) (d : JobDoc) (jid : String)
    (hid : d.id = jid) (hst : d.status = .queued ∨ d.status = .processing)
    (hpre : ∀ e ∈ pre, ¬(e.id = jid ∧ (e.status = .queued ∨ e.status = .processing))) :
    cancelJob (pre ++ d :: post) jid
      = (pre ++ { d with status := .cancelled } :: post, true) := by
  induction pre with
  | nil =>
    have hc : d.id = jid ∧ (d.status = .queued ∨ d.status = .processing) := ⟨hid, hst⟩
    simp only [List.nil_append, cancelJob, if_pos hc]
  | cons p ps ih =>
    have hp := hpre p (List.mem_cons_self p ps)
    have ihs := ih (fun e he => hpre e (List.mem_cons_of_mem p he))
    simp only [List.cons_append, cancelJob, if_neg hp, List.append_eq, ihs]

/-- C5 (amended): cancelling a job in a terminal state is rejected and
changes no state, and cancelling a Queued or Processing job rewrites it
to Cancelled; however, the job is not removed from the in-memory worker
queue and the worker loop never re-checks the status before writing: its
writes filter on the job id only, so a Cancelled job that the worker pops
is written to Processing and then to a terminal state regardless. -/
theorem C5_cancellation_behavior :
    (∀ (db : List JobDoc) (jid : String),
      (∀ d ∈ db, d.id = jid → d.status ≠ .queued ∧ d.status ≠ .processing) →
      cancelJob db jid = (db, false)) ∧
    (∀ (pre post : List JobDoc) (d : JobDoc) (jid : String),
      d.id = jid → (d.status = .queued ∨ d.status = .processing) →
      (∀ e ∈ pre, ¬(e.id = jid ∧ (e.status = .queued ∨ e.status = .processing))) →
      cancelJob (pre ++ d :: post) jid
        = (pre ++ { d with status := .cancelled } :: post, true)) ∧
    (∀ (env : ProcEnv) (db : List JobDoc) (j : JobObj), (processSingleJob env).1 = true →
      (workerStep env db j).db
        = setFields (setFields db j.id (fun d => { d with status := .processing }))
            j.id (fun d => { d with status := .completed })) ∧
    (∀ (jid : String) (rc rc2 : ℕ) (pr : ℤ),
      statusOf (workerStep ⟨true, true⟩ [⟨jid, .cancelled, rc⟩] ⟨jid, rc2, pr⟩).db jid
        = some .completed) := by
  refine ⟨cancelJob_no_match, cancelJob_match, ?_, ?_⟩
  · intro env db j h
    simp [workerStep, h]
  · intro jid rc rc2 pr
    simp [workerStep, processSingleJob, setFields, statusOf]

/-- Witness for C5 at concrete jobs. -/
theorem C5_cancellation_behavior_witness :
    cancelJob [⟨"c", .completed, 0⟩] "c" = ([⟨"c", .completed, 0⟩], false) ∧
    cancelJob [⟨"q", .queued, 0⟩] "q" = ([⟨"q", .cancelled, 0⟩], true) := by
  constructor
  · exact C5_cancellation_behavior.1 [⟨"c", .completed, 0⟩] "c" (by decide)
  · have h := C5_cancellation_behavior.2.1 [] [] ⟨"q", .queued, 0⟩ "q" rfl (Or.inl rfl)
      (by simp)
    simpa using h

/-- Counterexample for C5 as stated: a Queued job cancelled while still
sitting in the in-memory queue is popped by the worker, which writes
Processing and then Completed over the Cancelled state — transitions are
written after cancellation, and the job was not removed from worker
consideration. -/
theorem C5_counterexample :
    (cancelJob [⟨"j", .queued, 0⟩] "j").2 = true ∧
    statusOf (cancelJob [⟨"j", .queued, 0⟩] "j").1 "j" = some .cancelled ∧
    statusOf (workerStep ⟨true, true⟩ (cancelJob [⟨"j", .queued, 0⟩] "j").1 ⟨"j", 0, 1⟩).db "j"
      = some .completed ∧
    (workerStep ⟨true, true⟩ (cancelJob [⟨"j", .queued, 0⟩] "j").1 ⟨"j", 0, 1⟩).broadcasts
      = [("j", "processing"), ("j", "completed")] := by
  decide

/-! ## Claim C6 -/

/-- whenever the worker re-queues a job object, the new retry count is
the old one plus 1 and the old one was below 3. -/
theorem workerStep_requeued_inv (env : ProcEnv) (db : List JobDoc) (j j2 : JobObj)
    (h : (workerStep env db j).requeued = some j2) :
    j2.retryCount = j.retryCount + 1 ∧ j.retryCount < 3 := by
  simp only [workerStep] at h
  split at h
  · simp at h
  · split at h
    · next hlt =>
      simp only [Option.some.injEq] at h
      exact ⟨by rw [← h], hlt⟩
    · simp at h

/-- the retry count never exceeds 3 along any run of processing attempts. -/
theorem runJob_retry_le (envs : List ProcEnv) (db : List JobDoc) (j : JobObj)
    (db2 : List JobDoc) (j2 : JobObj) (h3 : j.retryCount ≤ 3)
    (h : runJob db j envs = (db2, some j2)) : j2.retryCount ≤ 3 := by
  induction envs generalizing db j with
  | nil =>
    simp only [runJob, Prod.mk.injEq, Option.some.injEq] at h
    exact h.2 ▸ h3
  | cons e es ih =>
    simp only [runJob] at h
    rcases hr : (workerStep e db j).requeued with - | jx
    · rw [hr] at h
      simp at h
    · rw [hr] at h
      have hj := workerStep_requeued_inv e db j jx hr
      exact ih _ _ (by omega) h

/-- C6: a job's retry_count never exceeds max_retries = 3: on a failed
attempt with retry_count < 3 the worker writes the job back to Queued
with retry_count + 1 and re-queues the object (the only backward
transition); on a failed attempt with retry_count = 3 the worker writes
Failed, broadcasts the failed status, and never re-queues the job. -/
theorem C6_retry_limit :
    (∀ (db : List JobDoc) (j : JobObj) (envs : List ProcEnv) (db2 : List JobDoc) (j2 : JobObj),
      j.retryCount ≤ 3 → runJob db j envs = (db2, some j2) → j2.retryCount ≤ 3) ∧
    (∀ (env : ProcEnv) (db : List JobDoc) (j : JobObj),
      (processSingleJob env).1 = false → j.retryCount < 3 →
      (workerStep env db j).requeued = some ⟨j.id, j.retryCount + 1, j.priority⟩ ∧
      (workerStep env db j).db
        = setFields (setFields db j.id (fun d => { d with status := .processing }))
            j.id (fun d => { d with status := .queued, retryCount := j.retryCount + 1 })) ∧
    (∀ (env : ProcEnv) (db : List JobDoc) (j : JobObj),
      (processSingleJob env).1 = false → j.retryCount = 3 →
      (workerStep env db j).requeued = none ∧
      (workerStep env db j).db
        = setFields (setFields db j.id (fun d => { d with status := .processing }))
            j.id (fun d => { d with status := .failed }) ∧
      (j.id, "failed") ∈ (workerStep env db j).broadcasts) := by
  refine ⟨fun db j envs db2 j2 h3 h => runJob_retry_le envs db j db2 j2 h3 h, ?_, ?_⟩
  · intro env db j hf hlt
    simp [workerStep, hf, hlt]
  · intro env db j hf h33
    simp [workerStep, hf, h33]

/-- Witness for C6 at a concrete failing attempt. -/
theorem C6_retry_limit_witness :
    (0 : ℕ) ≤ 3 ∧ (JobObj.mk "j" 1 1).retryCount ≤ 3 :=
  ⟨by decide,
   C6_retry_limit.1 [⟨"j", .queued, 0⟩] ⟨"j", 0, 1⟩ [⟨true, false⟩]
     [⟨"j", .queued, 1⟩] ⟨"j", 1, 1⟩ (by decide) (by decide)⟩

/-! ## Claim C7 -/

/-- asyncio.Queue puts fold to plain appends. -/
theorem foldl_queuePut (l : List JobObj) (acc : List JobObj) :
    List.foldl queuePut acc l = acc ++ l := by
  induction l generalizing acc with
  | nil => simp
  | cons x xs ih => simp [queuePut, ih]

/-- C7 (amended): the single worker loop pulls jobs from the shared
asyncio.Queue in plain FIFO arrival order: after any sequence of puts the
first job enqueued is the first one dequeued; the queue is a plain FIFO
queue and the jobs' priority field plays no role in dequeue order. -/
theorem C7_fifo_order (j : JobObj) (js : List JobObj) :
    queueGet (List.foldl queuePut [] (j :: js)) = some (j, js) ∧
    (∀ (q : List JobObj) (k : JobObj), queuePut q k = q ++ [k]) := by
  constructor
  · rw [foldl_queuePut]
    rfl
  · intro q k
    rfl

/-- Counterexample for C7 as stated: with a priority-1 job enqueued
before a priority-5 job, the worker pulls the priority-1 job first — the
queue is FIFO, not priority-ordered. -/
theorem C7_counterexample :
    queueGet (queuePut (queuePut [] ⟨"a", 0, 1⟩) ⟨"b", 0, 5⟩)
      = some (⟨"a", 0, 1⟩, [⟨"b", 0, 5⟩]) ∧
    (JobObj.mk "a" 0 1).priority < (JobObj.mk "b" 0 5).priority := by
  decide

/-! ## Claim C8 -/

/-- handleError changes only the cooldown, never the history. -/
theorem handleError_history (st : RateState) (now : ℚ) (e : String) :
    (handleError st now e).history = st.history := rfl

/-- C8 (amended): while not in cooldown, an admit with window occupancy
below the adaptive limit returns (true, 0) but leaves the history
untouched apart from the eviction — the current timestamp is appended
only by the separate record_request call (or by the simple server gate
check_rate_limit, which does append on admission); when the window is at
or above the limit the admit denies with wait = max 0 (60 - (now -
oldest)); in the 10-requests-at-limit-10 scenario the next admit returns
false with wait equal to the time until the oldest entry expires. -/
theorem C8_window_admission :
    (∀ (st : RateState) (now : ℚ),
      (st.history.dropWhile (fun s => s.timestamp < now - 60)).length < st.limit →
      windowAdmit st now = ((true, 0),
        { st with history := st.history.dropWhile (fun s => s.timestamp < now - 60) })) ∧
    (∀ (st : RateState) (now : ℚ) (first : Sample) (rest : List Sample),
      st.history.dropWhile (fun s => s.timestamp < now - 60) = first :: rest →
      ¬((first :: rest).length < st.limit) →
      windowAdmit st now = ((false, max 0 (60 - (now - first.timestamp))),
        { st with history := first :: rest })) ∧
    (∀ (st : RateState) (now : ℚ) (success : Bool) (rt : ℚ) (e : Option String),
      (recordRequest st now success rt e).history = st.history ++ [⟨now, success, rt, e⟩]) ∧
    (∀ (times : List ℚ) (now : ℚ) (lim : ℕ),
      (times.dropWhile (fun x => x < now - 60)).length < lim →
      checkRateLimit times now lim = (true, times.dropWhile (fun x => x < now - 60) ++ [now])) ∧
    (canMakeRequest ⟨[⟨5, true, 0, none⟩, ⟨10, true, 0, none⟩, ⟨15, true, 0, none⟩,
        ⟨20, true, 0, none⟩, ⟨25, true, 0, none⟩, ⟨30, true, 0, none⟩, ⟨35, true, 0, none⟩,
        ⟨40, true, 0, none⟩, ⟨45, true, 0, none⟩, ⟨50, true, 0, none⟩], 10, none⟩ 60).1
      = (false, 5) := by
  refine ⟨?_, ?_, ?_, ?_, ?_⟩
  · intro st now h
    simp only [windowAdmit]
    rw [if_pos h]
  · intro st now first rest hdrop hn
    simp only [windowAdmit]
    rw [hdrop, if_neg hn]
  · intro st now success rt e
    simp only [recordRequest]
    split
    · rw [handleError_history, adaptLimits_history]
    · rw [adaptLimits_history]
  · intro times now lim h
    simp only [checkRateLimit]
    rw [if_pos h]
  · norm_num [canMakeRequest, windowAdmit]

/-- Witness for C8 at concrete admissions. -/
theorem C8_window_admission_witness :
    windowAdmit initialRateState 0 = ((true, 0), initialRateState) ∧
    checkRateLimit [] 0 10 = (true, [0]) := by
  constructor
  · have h := C8_window_admission.1 initialRateState 0 (by decide)
    simpa [initialRateState] using h
  · have h := C8_window_admission.2.2.2.1 [] 0 10 (by decide)
    simpa using h

/-- Counterexample for C8 as stated: an admitted request does not append
the current timestamp — with one entry in the window and limit 10,
can_make_request returns (true, 0) and the history still holds exactly
that one entry, not two. -/
theorem C8_counterexample :
    canMakeRequest ⟨[⟨50, true, 0, none⟩], 10, none⟩ 60
      = ((true, 0), ⟨[⟨50, true, 0, none⟩], 10, none⟩) ∧
    (canMakeRequest ⟨[⟨50, true, 0, none⟩], 10, none⟩ 60).2.history.length = 1 := by
  have h : canMakeRequest ⟨[⟨50, true, 0, none⟩], 10, none⟩ 60
      = ((true, 0), ⟨[⟨50, true, 0, none⟩], 10, none⟩) := by
    norm_num [canMakeRequest, windowAdmit]
  exact ⟨h, by rw [h]; rfl⟩

/-! ## Claim C9 -/

/-- Length of the nested batch loop output. -/
theorem batchJobsAux_length (bid : String) (provs : List String) (prompts : List String) :
    (batchJobsAux bid provs prompts).length = prompts.length * provs.length := by
  induction prompts with
  | nil => simp [batchJobsAux]
  | cons pr prs ih =>
    simp only [batchJobsAux, List.length_append, List.length_map, List.length_cons, ih,
      Nat.succ_mul]
    omega

/-- Every record of the nested batch loop references the batch id. -/
theorem batchJobsAux_mem (bid : String) (provs : List String) (prompts : List String)
    (j : BatchJobRec) (h : j ∈ batchJobsAux bid provs prompts) :
    j.batchId = bid ∧ j.source = "batch" := by
  induction prompts with
  | nil => simp [batchJobsAux] at h
  | cons pr prs ih =>
    simp only [batchJobsAux, List.mem_append, List.mem_map] at h
    rcases h with ⟨pv, hpv, rfl⟩ | h2
    · exact ⟨rfl, rfl⟩
    · exact ih h2

/-- C9: creating a batch with n prompts and m providers yields exactly
n * m job records, each referencing the batch id in its metadata, and the
batch document's progress.total is set to n * m at creation time, before
any of those jobs runs. -/
theorem C9_batch_creation (b : BatchInput) :
    (createBatchJob b).1 = b.prompts.length * b.providers.length ∧
    (createBatchJob b).2.length = b.prompts.length * b.providers.length ∧
    (∀ j ∈ (createBatchJob b).2, j.batchId = b.id ∧ j.source = "batch") :=
  ⟨rfl, batchJobsAux_length b.id b.providers b.prompts,
   fun j hj => batchJobsAux_mem b.id b.providers b.prompts j hj⟩

/-- Witness for C9 at a 3-prompt, 2-provider batch. -/
theorem C9_batch_creation_witness :
    (createBatchJob ⟨"b1", "n", ["p1", "p2", "p3"], ["A", "B"]⟩).2.length = 6 ∧
    (BatchJobRec.mk "p1" "A" 2 "b1" "batch").batchId = "b1" := by
  have h := C9_batch_creation ⟨"b1", "n", ["p1", "p2", "p3"], ["A", "B"]⟩
  refine ⟨?_, (h.2.2 ⟨"p1", "A", 2, "b1", "batch"⟩ (by decide)).1⟩
  rw [h.2.1]
  rfl

/-! ## Claim C10 -/

/-- With no job of the provider in the store, the 24 h completed-jobs
query is empty. -/
theorem completedInWindow_nil (jobs : List DbJob) (p : String) (now : ℚ)
    (h : ∀ j ∈ jobs, j.provider ≠ p) : completedInWindow jobs p now = [] := by
  rw [completedInWindow, List.filter_eq_nil_iff]
  intro j hj
  have hb : (j.provider == p) = false := beq_eq_false_iff_ne.mpr (h j hj)
  simp [hb]

/-- With no job of the provider in the store, the 6 h query is empty. -/
theorem jobsInWindow6h_nil (jobs : List DbJob) (p : String) (now : ℚ)
    (h : ∀ j ∈ jobs, j.provider ≠ p) : jobsInWindow6h jobs p now = [] := by
  rw [jobsInWindow6h, List.filter_eq_nil_iff]
  intro j hj
  have hb : (j.provider == p) = false := beq_eq_false_iff_ne.mpr (h j hj)
  simp [hb]

/-- Members of the 24 h completed-jobs query carry a completed_at. -/
theorem completedInWindow_isSome (jobs : List DbJob) (p : String) (now : ℚ) (j : DbJob)
    (h : j ∈ completedInWindow jobs p now) : j.completedAt.isSome := by
  rw [completedInWindow, List.mem_filter] at h
  rcases h with ⟨-, hcond⟩
  cases hc : j.completedAt with
  | none => rw [hc] at hcond; simp at hcond
  | some c => rfl

/-- Membership is preserved by the insertion step of the sort. -/
theorem mem_insertByCompletedDesc (a j : DbJob) (l : List DbJob) :
    a ∈ insertByCompletedDesc j l ↔ a = j ∨ a ∈ l := by
  induction l with
  | nil => simp [insertByCompletedDesc]
  | cons k ks ih =>
    simp only [insertByCompletedDesc]
    split
    · simp [List.mem_cons]
    · simp only [List.mem_cons, ih]
      tauto

/-- Membership is preserved by the sort on completed_at. -/
theorem mem_sortByCompletedDesc (a : DbJob) (l : List DbJob) :
    a ∈ sortByCompletedDesc l ↔ a ∈ l := by
  induction l with
  | nil => simp [sortByCompletedDesc]
  | cons j js ih => simp [sortByCompletedDesc, mem_insertByCompletedDesc, ih]

/-- processingTimes of a list headed by a job with completed_at. -/
theorem processingTimes_cons_some (j : DbJob) (l : List DbJob) (c : ℚ)
    (hc : j.completedAt = some c) :
    processingTimes (j :: l) = (c - j.createdAt) :: processingTimes l := by
  simp [processingTimes, hc]

/-- C10: with no job of the provider in the store, schedule returns
delay 0 and the unchanged base priority; with a nonempty 24 h window the
delay is min(mean(processing_time) * 0.1, 30); the priority is raised by
1 capped at 5 above a 6 h success rate of 0.9, lowered by 1 floored at 1
below 0.5, and kept otherwise or when the 6 h window is empty. -/
theorem C10_scheduler_behavior :
    (∀ (jobs : List DbJob) (p : String) (now : ℚ) (base : ℤ),
      (∀ j ∈ jobs, j.provider ≠ p) → scheduleJob jobs p now base = (0, base)) ∧
    (∀ (jobs : List DbJob) (p : String) (now : ℚ) (r : DbJob) (rs : List DbJob),
      (sortByCompletedDesc (completedInWindow jobs p now)).take 50 = r :: rs →
      calculateOptimalDelay jobs p now
        = min (((processingTimes (r :: rs)).sum / ((processingTimes (r :: rs)).length : ℚ))
            * (1/10)) 30) ∧
    (∀ (jobs : List DbJob) (p : String) (now : ℚ) (base : ℤ),
      (jobsInWindow6h jobs p now).length = 0 → adjustPriority jobs p now base = base) ∧
    (∀ (jobs : List DbJob) (p : String) (now : ℚ) (base : ℤ),
      0 < (jobsInWindow6h jobs p now).length →
      ((((jobsInWindow6h jobs p now).filter (fun j => j.status == "completed")).length : ℚ)
            / ((jobsInWindow6h jobs p now).length : ℚ) > 9/10 →
        adjustPriority jobs p now base = min (base + 1) 5) ∧
      ((((jobsInWindow6h jobs p now).filter (fun j => j.status == "completed")).length : ℚ)
            / ((jobsInWindow6h jobs p now).length : ℚ) < 1/2 →
        adjustPriority jobs p now base = max (base - 1) 1) ∧
      (1/2 ≤ (((jobsInWindow6h jobs p now).filter (fun j => j.status == "completed")).length : ℚ)
            / ((jobsInWindow6h jobs p now).length : ℚ) →
       (((jobsInWindow6h jobs p now).filter (fun j => j.status == "completed")).length : ℚ)
            / ((jobsInWindow6h jobs p now).length : ℚ) ≤ 9/10 →
        adjustPriority jobs p now base = base)) := by
  refine ⟨?_, ?_, ?_, ?_⟩
  · intro jobs p now base h
    have h1 := completedInWindow_nil jobs p now h
    have h2 := jobsInWindow6h_nil jobs p now h
    simp [scheduleJob, calculateOptimalDelay, adjustPriority, h1, h2, sortByCompletedDesc]
  · intro jobs p now r rs hrec
    have hmem : r ∈ completedInWindow jobs p now := by
      have hm : r ∈ (sortByCompletedDesc (completedInWindow jobs p now)).take 50 := by
        rw [hrec]; exact List.mem_cons_self r rs
      exact (mem_sortByCompletedDesc r _).mp (List.mem_of_mem_take hm)
    have hsome := completedInWindow_isSome jobs p now r hmem
    rcases Option.isSome_iff_exists.mp hsome with ⟨c, hc⟩
    have hlen : 0 < (processingTimes (r :: rs)).length := by
      rw [processingTimes_cons_some r rs c hc]
      simp
    simp only [calculateOptimalDelay]
    rw [hrec]
    simp [hlen]
  · intro jobs p now base h
    simp [adjustPriority, h]
  · intro jobs p now base htot
    refine ⟨?_, ?_, ?_⟩
    · intro h1
      simp only [adjustPriority]
      rw [if_pos htot, if_pos h1]
    · intro h2
      simp only [adjustPriority]
      rw [if_pos htot, if_neg (by linarith), if_pos h2]
    · intro h3a h3b
      simp only [adjustPriority]
      rw [if_pos htot, if_neg (by linarith), if_neg (by linarith)]

/-- Witness for C10 at an empty store. -/
theorem C10_scheduler_behavior_witness :
    scheduleJob [] "ImageFX" 1000 3 = (0, 3) :=
  C10_scheduler_behavior.1 [] "ImageFX" 1000 3 (by simp)

end EXTEM
